import Mathlib

/-!
Verification of the execution-orchestration core of the veo3 repository.

The development shallowly embeds the TypeScript sources:
  * src/types/execution.ts, src/types/agent.ts  (data model)
  * src/lib/api/errors.ts                       (error taxonomy, retry policy)
  * src/lib/api/webhook-client.ts               (transport client)
  * src/lib/agents/agent-registry.ts            (registry lookup)
  * src/unnamed/part_001                        (ExecutionService)
  * src/unnamed/part_000                        (StorageService)
  * src/lib/store/execution-store.ts            (execution store)

Platform builtins (JSON.parse / JSON.stringify / URL.createObjectURL) are
modelled as parameters of a `JSEnv` record; ambient effects (Date.now,
uuid, the network reply of a fetch, the localStorage quota) are explicit
parameters.  Machine reals/dates are Nat milliseconds.
-/

namespace Veo3

/-! ## JSON-like values (TypeScript `any`) -/

/-- A JavaScript value as it occurs in `any`-typed positions: primitives,
`undefined`, a binary `Blob (size, mimeType)`, arrays and plain objects
(field lists in insertion order, keys unique). -/
inductive JValue where
  | null
  | undefined
  | bool (b : Bool)
  | num (n : Int)
  | str (s : String)
  | blob (size : Nat) (mime : String)
  | arr (elems : List JValue)
  | obj (fields : List (String × JValue))

/-- JavaScript truthiness of a value (`null`, `undefined`, `false`, `0`,
`""` are falsy; objects, arrays and blobs are truthy). -/
def JValue.truthy : JValue → Bool
  | .null => false
  | .undefined => false
  | .bool b => b
  | .num n => n != 0
  | .str s => s ≠ ""
  | .blob _ _ => true
  | .arr _ => true
  | .obj _ => true

/-- Property access `v.f` on a JavaScript value: a field of an object, and
`undefined` on anything else or a missing field. -/
def JValue.getField (v : JValue) (f : String) : JValue :=
  match v with
  | .obj fields => match fields.find? (fun p => p.1 = f) with
    | some p => p.2
    | none => .undefined
  | _ => .undefined

/-- `typeof v === 'object'` (in JavaScript `null` is of type object). -/
def JValue.isObjectType : JValue → Bool
  | .null => true
  | .blob _ _ => true
  | .arr _ => true
  | .obj _ => true
  | _ => false

/-- Platform builtins used by the sources, abstracted as an environment:
`JSON.parse` (on the string produced by coercion), `JSON.stringify`, and
`URL.createObjectURL` applied to a `Blob (size, mime)`. -/
structure JSEnv where
  jsonParse : String → JValue
  jsonStringify : JValue → String
  createObjectURL : Nat → String → String

/-! ## Data model (src/types/execution.ts, src/types/agent.ts) -/

inductive ExecutionStatus where
  | pending | processing | completed | failed
deriving DecidableEq

inductive InputSchemaType where
  | text | form | file
deriving DecidableEq

inductive OutputSchemaType where
  | video | image | text | json
deriving DecidableEq

/-- Thrown JavaScript errors that occur in the embedded sources.  The first
six constructors are the `ExecutionBaseError` subclasses of
src/lib/api/errors.ts; the rest are plain `Error` subclasses (or non-Error
throws) that do NOT extend `ExecutionBaseError`. -/
inductive JSError where
  | executionTimeoutError (executionId : String) (timeoutMs : Nat)
  | validationErr (field : String) (constraint : String) (value : Option JValue)
  | webhookError (statusCode : Nat) (responseBody : String)
  | networkError (message : String) (originalError : Option String)
  | agentNotFoundError (agentId : String)
  | agentUnavailableError (agentId : String) (reason : String)
  /-- src/lib/agents/agent-registry.ts `AgentValidationError extends Error`. -/
  | agentValidationError (message : String) (agentId : Option String)
  /-- src/unnamed/part_000 `StorageError extends Error` (carries a code field
  of its own; its subclass QuotaExceededError uses code QUOTA_EXCEEDED). -/
  | storageError (message : String) (code : String)
  /-- A built-in `TypeError` (fetch connection failure). -/
  | typeError (message : String)
  /-- A generic `Error` with a given `name` (e.g. the browser's
  QuotaExceededError DOMException, or a node FetchError). -/
  | errorWithName (name : String) (message : String)
  /-- A thrown plain string. -/
  | stringThrow (s : String)
  /-- A thrown `null` (TypeScript's dead `throw lastError` tail). -/
  | nullThrow

/-- The `message` property of a thrown value, as the constructors of
src/lib/api/errors.ts compute it (a thrown string or null has none and is
given ""). -/
def JSError.message : JSError → String
  | .executionTimeoutError executionId timeoutMs =>
      "Execution " ++ executionId ++ " timed out after " ++ toString timeoutMs ++ "ms"
  | .validationErr field constraint _ => "Validation failed for " ++ field ++ ": " ++ constraint
  | .webhookError statusCode _ => "Webhook request failed with status " ++ toString statusCode
  | .networkError m _ => "Network error: " ++ m
  | .agentNotFoundError agentId => "Agent not found: " ++ agentId
  | .agentUnavailableError agentId reason => "Agent " ++ agentId ++ " is unavailable: " ++ reason
  | .agentValidationError m _ => m
  | .storageError m _ => m
  | .typeError m => m
  | .errorWithName _ m => m
  | .stringThrow _ => ""
  | .nullThrow => ""

/-- `error instanceof Error` for a thrown value. -/
def JSError.isErrorInstance : JSError → Bool
  | .stringThrow _ => false
  | .nullThrow => false
  | _ => true

/-- `error instanceof ExecutionBaseError` (only the six taxonomy classes of
src/lib/api/errors.ts extend it). -/
def JSError.isExecutionBaseError : JSError → Bool
  | .executionTimeoutError _ _ => true
  | .validationErr _ _ _ => true
  | .webhookError _ _ => true
  | .networkError _ _ => true
  | .agentNotFoundError _ => true
  | .agentUnavailableError _ _ => true
  | _ => false

/-- The `name` property of a thrown value (`this.constructor.name` for the
taxonomy classes). -/
def JSError.name : JSError → String
  | .executionTimeoutError _ _ => "ExecutionTimeoutError"
  | .validationErr _ _ _ => "ValidationError"
  | .webhookError _ _ => "WebhookError"
  | .networkError _ _ => "NetworkError"
  | .agentNotFoundError _ => "AgentNotFoundError"
  | .agentUnavailableError _ _ => "AgentUnavailableError"
  | .agentValidationError _ _ => "AgentValidationError"
  | .storageError _ _ => "StorageError"
  | .typeError _ => "TypeError"
  | .errorWithName n _ => n
  | .stringThrow _ => ""
  | .nullThrow => ""

/-- The structured `details` payload of an ExecutionError: either a JSON-like
value (as built by the error constructors) or the raw thrown error object
(ExecutionService stores the caught error itself as details). -/
inductive ErrDetails where
  | val (v : JValue)
  | raw (e : JSError)

/-- src/types/execution.ts `ExecutionError`. -/
structure ExecutionError where
  code : String
  message : String
  details : Option ErrDetails := none

/-- src/types/execution.ts `ExecutionInput`. -/
structure ExecutionInput where
  prompt : Option String := none
  parameters : Option (List (String × JValue)) := none

/-- src/types/execution.ts `ExecutionOutput` (metadata is a free-form
object). -/
structure ExecutionOutput where
  type : OutputSchemaType
  data : JValue
  metadata : Option JValue := none

/-- src/types/execution.ts `Execution`; dates are Nat milliseconds. -/
structure Execution where
  id : String
  agentId : String
  status : ExecutionStatus
  input : ExecutionInput
  output : Option ExecutionOutput := none
  createdAt : Nat
  completedAt : Option Nat := none
  error : Option ExecutionError := none

/-- src/types/execution.ts `ExecutionResult` (the poller's return shape). -/
structure ExecutionResult where
  status : ExecutionStatus
  output : Option ExecutionOutput := none
  error : Option ExecutionError := none

/-- src/types/agent.ts `FormField`. -/
structure FormField where
  name : String
  label : String
  type : String
  defaultValue : Option JValue := none
  options : Option (List String) := none
  required : Option Bool := none

/-- src/types/agent.ts `InputSchema` (the optional validation rules are not
consulted by the embedded code paths). -/
structure InputSchema where
  type : InputSchemaType
  fields : Option (List FormField) := none

/-- src/types/agent.ts `OutputSchema`. -/
structure OutputSchema where
  type : OutputSchemaType
  format : Option String := none

/-- src/types/agent.ts `AgentSettings` (times in milliseconds). -/
structure AgentSettings where
  maxExecutionTime : Option Nat := none
  pollingInterval : Option Nat := none
  retryAttempts : Option Nat := none

/-- src/types/agent.ts `AgentConfig`. -/
structure AgentConfig where
  id : String
  name : String
  description : String
  icon : String
  webhookUrl : String
  category : Option String := none
  status : String
  inputSchema : InputSchema
  outputSchema : OutputSchema
  settings : Option AgentSettings := none

/-! ## Error parsing and retry policy (src/lib/api/errors.ts) -/

/-- `toExecutionError` of each `ExecutionBaseError` subclass: the structured
details object each constructor stored. -/
def JSError.ctorDetails : JSError → Option ErrDetails
  | .executionTimeoutError executionId timeoutMs =>
      some (.val (.obj [("executionId", .str executionId), ("timeoutMs", .num timeoutMs)]))
  | .validationErr field constraint value =>
      some (.val (.obj [("field", .str field), ("constraint", .str constraint),
        ("value", match value with | some v => v | none => .undefined)]))
  | .webhookError statusCode responseBody =>
      some (.val (.obj [("statusCode", .num statusCode), ("responseBody", .str responseBody)]))
  | .networkError _ originalError =>
      some (.val (.obj [("originalError",
        match originalError with | some m => .str m | none => .undefined)]))
  | .agentNotFoundError agentId => some (.val (.obj [("agentId", .str agentId)]))
  | .agentUnavailableError agentId reason =>
      some (.val (.obj [("agentId", .str agentId), ("reason", .str reason)]))
  | _ => none

/-- The taxonomy code carried by each `ExecutionBaseError` subclass. -/
def JSError.baseCode : JSError → String
  | .executionTimeoutError _ _ => "EXECUTION_TIMEOUT"
  | .validationErr _ _ _ => "VALIDATION_ERROR"
  | .webhookError _ _ => "WEBHOOK_ERROR"
  | .networkError _ _ => "NETWORK_ERROR"
  | .agentNotFoundError _ => "AGENT_NOT_FOUND"
  | .agentUnavailableError _ _ => "AGENT_UNAVAILABLE"
  | _ => ""

/-- src/lib/api/errors.ts `parseError`: normalize any caught value into an
ExecutionError.  `ExecutionBaseError` subclasses keep their code; any other
`Error` (including `AgentValidationError` and `StorageError`, which extend
plain `Error`) and any string or unknown throw degrade to UNKNOWN_ERROR. -/
def parseError (e : JSError) : ExecutionError :=
  if e.isExecutionBaseError then
    { code := e.baseCode, message := e.message, details := e.ctorDetails }
  else if e.isErrorInstance then
    { code := "UNKNOWN_ERROR", message := e.message,
      details := some (.val (.obj [("name", .str e.name), ("stack", .undefined)])) }
  else
    match e with
    | .stringThrow s => { code := "UNKNOWN_ERROR", message := s, details := none }
    | _ => { code := "UNKNOWN_ERROR", message := "An unknown error occurred",
             details := some (.raw e) }

/-- src/lib/api/errors.ts `RetryConfig` with every field optional
(`Partial<RetryConfig>` as passed to retryWithBackoff). -/
structure PartialRetryConfig where
  maxAttempts : Option Nat := none
  delayMs : Option Nat := none
  backoffMultiplier : Option Nat := none
  retryableErrors : Option (List String) := none

/-- src/lib/api/errors.ts `DEFAULT_RETRY_CONFIG`. -/
def defaultMaxAttempts : Nat := 3
def defaultDelayMs : Nat := 1000
def defaultBackoffMultiplier : Nat := 2
def defaultRetryableErrors : List String := ["NETWORK_ERROR", "WEBHOOK_ERROR"]

/-- src/lib/api/errors.ts `isRetryableError`. -/
def isRetryableError (e : ExecutionError) (retryableErrors : List String) : Bool :=
  retryableErrors.contains e.code

/-- Result of running the retry loop: the settled value or the rethrown
error, the list of waits actually performed (ms), and how many times the
operation was invoked. -/
structure RetryTrace (T : Type) where
  result : Except JSError T
  waits : List Nat
  attemptsMade : Nat

/-- The `for` loop of src/lib/api/errors.ts `retryWithBackoff`, with the
operation modelled as the outcome of each 1-indexed attempt.  `remaining`
counts the attempts left after the current one (`attempt = maxAttempts`
corresponds to `remaining = 0`). -/
def retryAux {T : Type} (fn : Nat → Except JSError T) (attempt : Nat)
    (currentDelay mult : Nat) (retryableErrors : List String)
    (waits : List Nat) : Nat → RetryTrace T
  | 0 =>
    -- last attempt: a failure is rethrown untouched
    match fn attempt with
    | .ok v => ⟨.ok v, waits, attempt⟩
    | .error e => ⟨.error e, waits, attempt⟩
  | remaining + 1 =>
    match fn attempt with
    | .ok v => ⟨.ok v, waits, attempt⟩
    | .error e =>
      if isRetryableError (parseError e) retryableErrors then
        retryAux fn (attempt + 1) (currentDelay * mult) mult retryableErrors
          (waits ++ [currentDelay]) remaining
      else
        ⟨.error e, waits, attempt⟩

/-- src/lib/api/errors.ts `retryWithBackoff` with the destructuring
defaults of DEFAULT_RETRY_CONFIG (a `maxAttempts = 0` configuration never
runs the operation and reaches the dead `throw lastError` with lastError
still null). -/
def retryWithBackoff {T : Type} (fn : Nat → Except JSError T)
    (config : PartialRetryConfig) : RetryTrace T :=
  let maxAttempts := config.maxAttempts.getD defaultMaxAttempts
  let delayMs := config.delayMs.getD defaultDelayMs
  let mult := config.backoffMultiplier.getD defaultBackoffMultiplier
  let retryableErrors := config.retryableErrors.getD defaultRetryableErrors
  match maxAttempts with
  | 0 => ⟨.error .nullThrow, [], 0⟩
  | n + 1 => retryAux fn 1 delayMs mult retryableErrors [] n

/-! ## Transport client (src/lib/api/webhook-client.ts) -/

/-- src/lib/api/webhook-client.ts `WebhookResponse` (the runtime object may
also carry a metadata field, read by the poller through `any`). -/
structure WebhookResponse where
  executionId : Option String := none
  status : String
  data : Option JValue := none
  metadata : Option JValue := none

/-- The behaviour of the single `fetch` call inside `triggerWorkflow`:
either an HTTP response (status, body text, parsed JSON body) or a thrown
low-level failure with no HTTP response at all. -/
inductive FetchOutcome where
  | response (status : Nat) (body : String) (json : WebhookResponse)
  | thrown (e : JSError)

def serviceUnavailableMessage : String :=
  "Service temporarily unavailable. Please check if n8n is running."

def webhookNotFoundMessage : String :=
  "Webhook not found. Make sure your n8n workflow is activated and the webhook path is correct."

def unableToConnectMessage : String :=
  "Unable to connect to the service. Please check if n8n is running."

/-- String coercion of a thrown value, as in the template literal
`Unexpected error: ${error}`. -/
def JSError.coerceToString (e : JSError) : String :=
  match e with
  | .stringThrow s => s
  | .nullThrow => "null"
  | _ => e.name ++ ": " ++ e.message

/-- The `catch` clause of `triggerWorkflow`: custom errors are re-thrown
as-is; a TypeError or an error named FetchError becomes a NetworkError
wrapping the cause; anything else becomes WebhookError(500, ...). -/
def triggerCatch (e : JSError) : JSError :=
  match e with
  | .webhookError _ _ => e
  | .networkError _ _ => e
  | .typeError m => .networkError unableToConnectMessage (some m)
  | _ =>
    if e.name = "FetchError" then
      .networkError unableToConnectMessage
        (if e.isErrorInstance then some e.message else none)
    else
      .webhookError 500 ("Unexpected error: " ++ e.coerceToString)

/-- The `try` block of `triggerWorkflow`: `response.ok` means a 2xx status;
non-2xx statuses are classified into typed throws. -/
def triggerTryBlock (outcome : FetchOutcome) : Except JSError WebhookResponse :=
  match outcome with
  | .response status body json =>
    if 200 ≤ status ∧ status < 300 then
      .ok json
    else if status = 503 ∨ status = 502 then
      .error (.networkError serviceUnavailableMessage none)
    else if status = 404 then
      .error (.webhookError 404 webhookNotFoundMessage)
    else
      .error (.webhookError status body)
  | .thrown e => .error e

/-- src/lib/api/webhook-client.ts `WebhookClient.triggerWorkflow`, given the
outcome of its fetch (the request URL and payload only feed the abstracted
network call). -/
def triggerWorkflow (outcome : FetchOutcome) : Except JSError WebhookResponse :=
  match triggerTryBlock outcome with
  | .ok r => .ok r
  | .error e => .error (triggerCatch e)

/-! ## Registry lookup (src/lib/agents/agent-registry.ts) -/

/-- The registry's validated map from agent id to configuration, abstracted
as a lookup function (AgentRegistry.getAgent after initialize). -/
def AgentRegistryMap : Type := String → Option AgentConfig

/-- src/lib/agents/agent-registry.ts `AgentRegistry.getAgentOrThrow`: a
missing agent raises `AgentValidationError("Agent not found: " + agentId)`
(a plain `Error` subclass, not an `ExecutionBaseError`). -/
def getAgentOrThrow (reg : AgentRegistryMap) (agentId : String) :
    Except JSError AgentConfig :=
  match reg agentId with
  | some agent => .ok agent
  | none => .error (.agentValidationError ("Agent not found: " ++ agentId) none)

/-! ## Execution service (src/unnamed/part_001) -/

/-- Assignment `payload[k] = v` on a JavaScript object: replace the value of
an existing key in place, otherwise append the key. -/
def objSet (fields : List (String × JValue)) (k : String) (v : JValue) :
    List (String × JValue) :=
  match fields with
  | [] => [(k, v)]
  | (k', v') :: rest => if k' = k then (k, v) :: rest else (k', v') :: objSet rest k v

/-- `input.parameters?.[name]`: an absent parameters object or key reads as
`undefined`. -/
def paramGet (input : ExecutionInput) (nm : String) : JValue :=
  match input.parameters with
  | none => .undefined
  | some ps => match ps.find? (fun p => p.1 = nm) with
    | some p => p.2
    | none => .undefined

/-- src/unnamed/part_001 `ExecutionService.formatPayload`: build the
outbound payload from the input according to the agent's input schema, then
merge every `input.parameters` entry onto it (Object.assign). -/
def formatPayload (agent : AgentConfig) (input : ExecutionInput) :
    List (String × JValue) :=
  let base : List (String × JValue) :=
    match agent.inputSchema.type with
    | .text => objSet [] "prompt" (.str (input.prompt.getD ""))
    | .form =>
      let withFields :=
        match agent.inputSchema.fields with
        | some fields =>
          fields.foldl (fun acc field =>
            let value :=
              match paramGet input field.name with
              | .undefined => match field.defaultValue with
                | some d => d
                | none => .undefined
              | v => v
            objSet acc field.name value) []
        | none => []
      match input.prompt with   -- `if (input.prompt)` - truthiness
      | some p => if p ≠ "" then objSet withFields "prompt" (.str p) else withFields
      | none => withFields
    | .file =>
      let withFile := objSet [] "file" (paramGet input "file")
      match input.prompt with
      | some p => if p ≠ "" then objSet withFile "prompt" (.str p) else withFile
      | none => withFile
  match input.parameters with
  | some ps => ps.foldl (fun acc p => objSet acc p.1 p.2) base
  | none => base

/-- Build the `metadata` object of the video/image `url` branch of
parseOutput: spread `data.metadata` then set filename/fileSize/duration/
resolution/description from the surrounding object. -/
def urlBranchMetadata (data : JValue) (filename fileSize : JValue) : JValue :=
  let spread : List (String × JValue) :=
    match data.getField "metadata" with
    | .obj fields => fields
    | _ => []
  .obj (objSet (objSet (objSet (objSet (objSet spread
      "filename" filename)
      "fileSize" fileSize)
      "duration" (data.getField "duration"))
      "resolution" (data.getField "resolution"))
      "description" (data.getField "description"))

/-- src/unnamed/part_001 `ExecutionService.parseOutput`: shape-sniff the
webhook response data according to the declared output type. -/
def parseOutput (js : JSEnv) (data : JValue) (outputType : OutputSchemaType) :
    ExecutionOutput :=
  match outputType with
  | .video | .image =>
    match data with
    | .str s => { type := outputType, data := .str s }
    | _ =>
      if (data.getField "url").truthy then
        { type := outputType, data := data.getField "url",
          metadata := some (urlBranchMetadata data
            (if (data.getField "filename").truthy then data.getField "filename"
             else data.getField "name")
            (if (data.getField "fileSize").truthy then data.getField "fileSize"
             else data.getField "size")) }
      else if (data.getField "videoUrl").truthy ∨ (data.getField "imageUrl").truthy then
        { type := outputType,
          data := if (data.getField "videoUrl").truthy then data.getField "videoUrl"
                  else data.getField "imageUrl",
          metadata := some (.obj
            [("filename", data.getField "filename"),
             ("fileSize", data.getField "fileSize"),
             ("duration", data.getField "duration"),
             ("resolution", data.getField "resolution"),
             ("description",
              if (data.getField "description").truthy then data.getField "description"
              else .str "Generated successfully")]) }
      else
        match data with
        | .blob size mime =>
          { type := outputType, data := .str (js.createObjectURL size mime),
            metadata := some (.obj [("fileSize", .num size), ("mimeType", .str mime)]) }
        | _ =>
          if (data.getField "binary").truthy then
            { type := outputType, data := data.getField "binary",
              metadata := some (if (data.getField "metadata").truthy
                then data.getField "metadata" else .obj []) }
          else
            { type := outputType, data := data }
  | .text =>
    { type := .text,
      data := match data with
        | .str s => .str s
        | _ => .str (js.jsonStringify data) }
  | .json =>
    { type := .json,
      data := if data.isObjectType then data
        else match data with
          | .str s => js.jsonParse s
          | v => js.jsonParse (js.jsonStringify v) }

/-- `initialResponse?.data` truthiness used by the poller. -/
def responseDataTruthy (r : Option WebhookResponse) : Bool :=
  match r with
  | none => false
  | some resp => match resp.data with
    | some v => v.truthy
    | none => false

/-- src/unnamed/part_001 `ExecutionService.pollForResult`, together with the
list of sleeps it performed (in ms).  The elapsed time at the first `while`
check is 0 ms, so the loop body runs iff `maxTime > 0`; the body sleeps
once for `interval` and then returns a non-terminal result
unconditionally. -/
def pollForResult (executionId : String) (maxTime interval : Nat)
    (initialResponse : Option WebhookResponse) : ExecutionResult × List Nat :=
  if responseDataTruthy initialResponse then
    (⟨.completed,
      some { type := .video,
             data := (initialResponse.bind (fun r => r.data)).getD .undefined,
             metadata := initialResponse.bind (fun r => r.metadata) },
      none⟩, [])
  else if 0 < maxTime then
    (⟨.processing,
      some { type := .video, data := .null,
             metadata := some (.obj
               [("description", .str "Video generation in progress (3-5 minutes)"),
                ("executionId", .str executionId),
                ("pollUrl", .str "/api/poll-execution"),
                ("estimatedTime", .num 180000),
                ("note", .str "n8n workflow started - polling for completion")]) },
      none⟩, [interval])
  else
    (⟨.failed, none,
      some { code := "EXECUTION_TIMEOUT",
             message := "Execution timed out after " ++ toString maxTime ++ "ms" }⟩, [])

/-- The hardcoded sample output fabricated by executeAgent's
no-data-no-polling branch. -/
def fabricatedSampleOutput : ExecutionOutput :=
  { type := .video,
    data := .str "https://commondatastorage.googleapis.com/gtv-videos-bucket/sample/BigBuckBunny.mp4",
    metadata := some (.obj
      [("description", .str "Video generation completed"),
       ("note", .str "n8n workflow executed successfully")]) }

/-- `agent.settings?.maxExecutionTime && agent.settings.maxExecutionTime > 0`. -/
def pollingConfigured (agent : AgentConfig) : Bool :=
  match agent.settings with
  | none => false
  | some st => match st.maxExecutionTime with
    | none => false
    | some t => t ≠ 0 && 0 < t

/-- `agent.settings.pollingInterval || 5000`. -/
def effectiveInterval (agent : AgentConfig) : Nat :=
  match agent.settings with
  | none => 5000
  | some st => match st.pollingInterval with
    | none => 5000
    | some i => if i = 0 then 5000 else i

/-- `error instanceof Error ? error.message : 'Unknown error occurred'`. -/
def caughtMessage (e : JSError) : String :=
  if e.isErrorInstance then e.message else "Unknown error occurred"

/-- Ambient effects of one executeAgent call: the uuid for the new
Execution, the Date.now() at creation, and the Date.now() at completion. -/
structure ExecEnv where
  freshId : String
  nowCreate : Nat
  nowComplete : Nat

/-- src/unnamed/part_001 `ExecutionService.executeAgent`.  The network is
abstracted by the `FetchOutcome` of the triggered webhook (the computed
dispatch path and payload only feed that abstracted call).  Returns the
settled call (the returned or rethrown value) together with the list of
Execution objects the call created, in their final mutated state. -/
def executeAgent (js : JSEnv) (reg : AgentRegistryMap) (outcome : FetchOutcome)
    (env : ExecEnv) (agentId : String) (input : ExecutionInput) :
    Except JSError Execution × List Execution :=
  match getAgentOrThrow reg agentId with
  | .error e => (.error e, [])
  | .ok agent =>
    let execution : Execution :=
      { id := env.freshId, agentId := agentId, status := .pending,
        input := input, createdAt := env.nowCreate }
    let _payload := formatPayload agent input
    match triggerWorkflow outcome with
    | .error err =>
      -- catch: record the failure on the Execution and rethrow the original
      let failed : Execution :=
        { execution with
          status := .failed
          error := some { code := "EXECUTION_FAILED", message := caughtMessage err,
                          details := some (.raw err) }
          completedAt := some env.nowComplete }
      (.error err, [failed])
    | .ok response =>
      let processing : Execution := { execution with status := .processing }
      let settled : Execution :=
        if (match response.data with | some v => v.truthy | none => false) then
          { processing with
            output := some (parseOutput js ((response.data).getD .undefined)
              agent.outputSchema.type),
            status := .completed }
        else if pollingConfigured agent then
          let maxTime := (agent.settings.bind (fun st => st.maxExecutionTime)).getD 0
          let result :=
            (pollForResult env.freshId maxTime (effectiveInterval agent)
              (some response)).1
          { processing with
            output := result.output,
            status := result.status,
            error := match result.error with
              | some e => some e
              | none => processing.error }
        else
          { processing with
            output := some fabricatedSampleOutput,
            status := .completed }
      let finished := { settled with completedAt := some env.nowComplete }
      (.ok finished, [finished])

/-! ## Association lists with JavaScript object semantics

Both the zustand `executions` record and localStorage are modelled as
association lists in key insertion order with unique keys: lookup reads the
first matching key, assignment replaces the value of an existing key in
place and otherwise appends. -/

def getA {α : Type} (m : List (String × α)) (k : String) : Option α :=
  match m with
  | [] => none
  | (k', v) :: rest => if k' = k then some v else getA rest k

def setA {α : Type} (m : List (String × α)) (k : String) (v : α) :
    List (String × α) :=
  match m with
  | [] => [(k, v)]
  | (k', v') :: rest => if k' = k then (k, v) :: rest else (k', v') :: setA rest k v

def removeA {α : Type} (m : List (String × α)) (k : String) : List (String × α) :=
  m.filter (fun p => p.1 ≠ k)

/-! ## Storage service (src/unnamed/part_000)

localStorage is modelled as an association list from agent id to the stored
execution list (the real key is the agent id behind the injective prefix
`ai-agent-platform:executions:`; the separate preferences key is untouched
by these code paths and not modelled; JSON serialization round-trips and is
modelled away).  Whether a given `localStorage.setItem` fits in the quota
is an oracle `ok` on the key and the value written; a failing write throws
the browser's QuotaExceededError and leaves the store unchanged. -/

abbrev Storage : Type := List (String × List Execution)

/-- Quota oracle: does writing this value at this key succeed? -/
abbrev QuotaOracle : Type := String → List Execution → Bool

/-- `localStorage.setItem`, `none` when the write throws QuotaExceededError. -/
def trySetItem (ok : QuotaOracle) (st : Storage) (k : String)
    (v : List Execution) : Option Storage :=
  if ok k v then some (setA st k v) else none

/-- src/unnamed/part_000 `StorageService.loadExecutions` (missing key reads
as the empty history). -/
def loadExecutions (st : Storage) (agentId : String) : List Execution :=
  (getA st agentId).getD []

/-- src/unnamed/part_000 `StorageService.getAgentIdsWithExecutions`: every
stored execution key, stripped of the prefix. -/
def agentIdsWithExecutions (st : Storage) : List String :=
  st.map Prod.fst

/-- The `forEach` of `freeUpSpace` over a list of agent ids: truncate each
stored history longer than 10 to its 10 most recent entries; a failing
truncation write throws out of the forEach, aborting the remaining ids (the
exception is then swallowed by freeUpSpace's catch). -/
def freeUpAux (ok : QuotaOracle) (st : Storage) : List String → Storage
  | [] => st
  | a :: rest =>
    let execs := loadExecutions st a
    if 10 < execs.length then
      match trySetItem ok st a (execs.take 10) with
      | some st' => freeUpAux ok st' rest
      | none => st
    else
      freeUpAux ok st rest

/-- src/unnamed/part_000 `StorageService.freeUpSpace`. -/
def freeUpSpace (ok : QuotaOracle) (st : Storage) : Storage :=
  freeUpAux ok st (agentIdsWithExecutions st)

/-- src/unnamed/part_000 `StorageService.handleQuotaExceeded`: retry with
the 10 most recent entries; on failure free up space globally and retry
with the 5 most recent; on final failure throw QuotaExceededError (the
`StorageError` subclass with code QUOTA_EXCEEDED).  The Bool records
whether the call threw. -/
def handleQuotaExceeded (ok : QuotaOracle) (st : Storage) (agentId : String)
    (executions : List Execution) : Storage × Bool :=
  match trySetItem ok st agentId (executions.take 10) with
  | some st' => (st', false)
  | none =>
    let stF := freeUpSpace ok st
    match trySetItem ok stF agentId (executions.take 5) with
    | some st' => (st', false)
    | none => (stF, true)

/-- src/unnamed/part_000 `StorageService.saveExecutions`: store the 50 most
recent entries; on a quota-exceeded failure enter the degradation cascade.
The Bool records whether a QuotaExceededError escaped to the caller. -/
def saveExecutions (ok : QuotaOracle) (st : Storage) (agentId : String)
    (executions : List Execution) : Storage × Bool :=
  match trySetItem ok st agentId (executions.take 50) with
  | some st' => (st', false)
  | none => handleQuotaExceeded ok st agentId executions

/-- src/unnamed/part_000 `StorageService.clearExecutions`
(`localStorage.removeItem` never throws for quota). -/
def clearExecutions (st : Storage) (agentId : String) : Storage :=
  removeA st agentId

/-! ## Execution store (src/lib/store/execution-store.ts) -/

/-- `Partial<Execution>`: each field either absent or present (a present
optional field may itself be `undefined`, overwriting on spread). -/
structure ExecutionUpdate where
  id : Option String := none
  agentId : Option String := none
  status : Option ExecutionStatus := none
  input : Option ExecutionInput := none
  output : Option (Option ExecutionOutput) := none
  createdAt : Option Nat := none
  completedAt : Option (Option Nat) := none
  error : Option (Option ExecutionError) := none

/-- The spread merge `{ ...execution, ...updates }`. -/
def mergeExec (e : Execution) (u : ExecutionUpdate) : Execution :=
  { id := u.id.getD e.id
    agentId := u.agentId.getD e.agentId
    status := u.status.getD e.status
    input := u.input.getD e.input
    output := u.output.getD e.output
    createdAt := u.createdAt.getD e.createdAt
    completedAt := u.completedAt.getD e.completedAt
    error := u.error.getD e.error }

/-- `status === 'pending' || status === 'processing'`. -/
def isActiveStatus (s : ExecutionStatus) : Bool :=
  s = .pending ∨ s = .processing

/-- The for-of / findIndex scan of updateExecution: the first agent entry
whose list contains the execution id, together with the first matching
execution in that list. -/
def findExecEntry (m : List (String × List Execution)) (executionId : String) :
    Option (String × Execution) :=
  match m with
  | [] => none
  | (a, la) :: rest =>
    match la.find? (fun e => e.id = executionId) with
    | some e => some (a, e)
    | none => findExecEntry rest executionId

/-- The zustand store state of src/lib/store/execution-store.ts, together
with the localStorage it mirrors to. -/
structure StoreState where
  executions : List (String × List Execution)
  currentExecution : Option Execution
  isExecuting : Bool
  storage : Storage

/-- The store's initial state over an initial localStorage content. -/
def initialStateOver (st : Storage) : StoreState :=
  { executions := [], currentExecution := none, isExecuting := false, storage := st }

def initialState : StoreState := initialStateOver []

def maxExecutionsPerAgent : Nat := 50

/-- src/lib/store/execution-store.ts `addExecution`: prepend, truncate to
the cap, mark current, recompute the executing flag, persist.  (A
QuotaExceededError escaping saveExecutions would propagate to the caller
after the state was already set; the resulting state is the same.) -/
def addExecution (ok : QuotaOracle) (e : Execution) (s : StoreState) : StoreState :=
  let agentExecutions := (getA s.executions e.agentId).getD []
  let updatedExecutions := (e :: agentExecutions).take maxExecutionsPerAgent
  { executions := setA s.executions e.agentId updatedExecutions
    currentExecution := some e
    isExecuting := isActiveStatus e.status
    storage := (saveExecutions ok s.storage e.agentId updatedExecutions).1 }

/-- The body of `updateExecution` once the execution id was located in
agent `agentId` with first match `found`. -/
def applyUpdate (ok : QuotaOracle) (executionId : String) (u : ExecutionUpdate)
    (s : StoreState) (agentId : String) (found : Execution) : StoreState :=
  let updatedExecution := mergeExec found u
  let agentExecutions := (getA s.executions agentId).getD []
  let updatedAgentExecutions :=
    agentExecutions.map (fun e => if e.id = executionId then updatedExecution else e)
  let isCur : Bool :=
    match s.currentExecution with
    | some c => decide (c.id = executionId)
    | none => false
  { executions := setA s.executions agentId updatedAgentExecutions
    currentExecution :=
      if isCur then some updatedExecution else s.currentExecution
    isExecuting :=
      if isCur then isActiveStatus updatedExecution.status else s.isExecuting
    storage := (saveExecutions ok s.storage agentId updatedAgentExecutions).1 }

/-- src/lib/store/execution-store.ts `updateExecution`: locate the
execution across all agents; absent ids warn and return; otherwise merge
the partial fields, replace every list entry carrying the id, update the
current pointer and executing flag when the current execution carries the
id, and persist that agent's list. -/
def updateExecution (ok : QuotaOracle) (executionId : String)
    (u : ExecutionUpdate) (s : StoreState) : StoreState :=
  match findExecEntry s.executions executionId with
  | none => s
  | some (agentId, found) => applyUpdate ok executionId u s agentId found

/-- src/lib/store/execution-store.ts `setCurrentExecution`. -/
def setCurrentExecution (oe : Option Execution) (s : StoreState) : StoreState :=
  { s with
    currentExecution := oe
    isExecuting := match oe with
      | some e => isActiveStatus e.status
      | none => false }

/-- src/lib/store/execution-store.ts `loadHistory`: hydrate the agent's
list from storage unless an entry (even an empty one) already exists. -/
def loadHistory (agentId : String) (s : StoreState) : StoreState :=
  if (getA s.executions agentId).isSome then s
  else
    { s with executions := setA s.executions agentId (loadExecutions s.storage agentId) }

/-- src/lib/store/execution-store.ts `clearHistory`: drop the agent's
in-memory list and stored record; clear the current pointer if that agent
owned it.  The executing flag is left untouched by the source. -/
def clearHistory (agentId : String) (s : StoreState) : StoreState :=
  { executions := removeA s.executions agentId
    currentExecution :=
      match s.currentExecution with
      | some c => if c.agentId = agentId then none else some c
      | none => none
    isExecuting := s.isExecuting
    storage := clearExecutions s.storage agentId }

/-- One public mutation of the store (each with its own quota behaviour). -/
inductive StoreStep : StoreState → StoreState → Prop where
  | add (ok : QuotaOracle) (e : Execution) (s : StoreState) :
      StoreStep s (addExecution ok e s)
  | update (ok : QuotaOracle) (executionId : String) (u : ExecutionUpdate)
      (s : StoreState) : StoreStep s (updateExecution ok executionId u s)
  | setCur (oe : Option Execution) (s : StoreState) :
      StoreStep s (setCurrentExecution oe s)
  | load (agentId : String) (s : StoreState) :
      StoreStep s (loadHistory agentId s)
  | clear (agentId : String) (s : StoreState) :
      StoreStep s (clearHistory agentId s)

/-- States reachable by any sequence of store operations from the initial
state. -/
inductive ReachableStore : StoreState → Prop where
  | init : ReachableStore initialState
  | step {s s' : StoreState} : ReachableStore s → StoreStep s s' → ReachableStore s'

/-- Store mutations restricted so that clearHistory is only invoked for an
agent that does not own a pending/processing current execution. -/
inductive SafeStoreStep : StoreState → StoreState → Prop where
  | add (ok : QuotaOracle) (e : Execution) (s : StoreState) :
      SafeStoreStep s (addExecution ok e s)
  | update (ok : QuotaOracle) (executionId : String) (u : ExecutionUpdate)
      (s : StoreState) : SafeStoreStep s (updateExecution ok executionId u s)
  | setCur (oe : Option Execution) (s : StoreState) :
      SafeStoreStep s (setCurrentExecution oe s)
  | load (agentId : String) (s : StoreState) :
      SafeStoreStep s (loadHistory agentId s)
  | clear (agentId : String) (s : StoreState)
      (h : ∀ c, s.currentExecution = some c → c.agentId = agentId →
        isActiveStatus c.status = false) :
      SafeStoreStep s (clearHistory agentId s)

/-- States reachable when clearHistory is never applied to the agent owning
an active current execution. -/
inductive ReachableSafeStore : StoreState → Prop where
  | init : ReachableSafeStore initialState
  | step {s s' : StoreState} :
      ReachableSafeStore s → SafeStoreStep s s' → ReachableSafeStore s'

/-- The derived-flag invariant of the spec: the executing flag is set iff
the current execution exists with status pending or processing. -/
def ExecFlagInv (s : StoreState) : Prop :=
  s.isExecuting = true ↔
    ∃ e, s.currentExecution = some e ∧
      (e.status = ExecutionStatus.pending ∨ e.status = ExecutionStatus.processing)

/-- Keys of an association list are pairwise distinct (JavaScript objects
and localStorage cannot hold a key twice). -/
abbrev NodupKeys {α : Type} (m : List (String × α)) : Prop :=
  (m.map Prod.fst).Nodup

/-- Execution ids do not repeat across different agents' lists (the data
model's ids are opaque unique identifiers). -/
abbrev CrossUniqueIds (m : List (String × List Execution)) : Prop :=
  m.Pairwise (fun p q => ∀ x ∈ p.2, ∀ y ∈ q.2, x.id ≠ y.id)

/-- Every per-agent list of the map is within the 50-entry cap. -/
abbrev AllCapped (m : List (String × List Execution)) : Prop :=
  ∀ p ∈ m, p.2.length ≤ 50

/-! ## Concrete sample data used by closed evaluations and witnesses -/

def jsStub : JSEnv :=
  { jsonParse := fun _ => .null, jsonStringify := fun _ => "",
    createObjectURL := fun _ _ => "" }

/-- A quota oracle under which every write fits. -/
def okAll : QuotaOracle := fun _ _ => true

def sampleTextAgent : AgentConfig :=
  { id := "video-agent", name := "VEO3 Video", description := "generates video",
    icon := "video", webhookUrl := "/api/webhook/veo3-video-generate",
    status := "active", inputSchema := { type := .text },
    outputSchema := { type := .video } }

/-- A registry holding only `sampleTextAgent` (which has no settings, hence
no polling configured). -/
def sampleRegistry : AgentRegistryMap :=
  fun i => if i = "video-agent" then some sampleTextAgent else none

def sampleEnv : ExecEnv := { freshId := "exec-1", nowCreate := 100, nowComplete := 200 }

/-- A webhook response carrying no payload data. -/
def emptyDataResponse : WebhookResponse := { status := "success" }

def pendingExec : Execution :=
  { id := "ex-1", agentId := "agent-a", status := .pending, input := {}, createdAt := 0 }

/-- `n` distinct completed executions for one agent, newest first. -/
def mkExecs (agentId : String) (n : Nat) : List Execution :=
  (List.range n).map (fun i =>
    { id := agentId ++ "-" ++ toString i, agentId := agentId,
      status := .completed, input := {}, createdAt := i })

/-- A quota oracle admitting only writes of at most `n` entries. -/
def okCap (n : Nat) : QuotaOracle := fun _ v => v.length ≤ n

/-- The store state reached by adding a pending execution for agent-a and
then clearing that agent's history. -/
def clearedWhileExecuting : StoreState :=
  clearHistory "agent-a" (addExecution okAll pendingExec initialState)

/-- The store state holding exactly one pending execution. -/
def oneExecState : StoreState := addExecution okAll pendingExec initialState

/-- A partial update that marks an execution completed. -/
def completedUpdate : ExecutionUpdate :=
  { status := some .completed, completedAt := some (some 500) }

/-- A store hydrated with a single 50-entry history for agent-a. -/
def fullAgentState : StoreState :=
  { executions := [("agent-a", mkExecs "agent-a" 50)]
    currentExecution := none
    isExecuting := false
    storage := [("agent-a", mkExecs "agent-a" 50)] }

/-! ## Claim C1 -/

/-- Claim C1 (code_bug evidence): at maxTime = 10000 ms, interval = 5000 ms
and an initial response without data, `pollForResult` performs exactly one
sleep of the interval and then returns the non-terminal status
`processing` as the loop's final answer — it neither re-checks a status
source until a terminal state nor reports EXECUTION_TIMEOUT, although the
elapsed time (5000 ms) is far below the maximum wait. -/
theorem pollForResult_settles_processing_after_single_sleep :
    (pollForResult "exec-1" 10000 5000 none).2 = [5000] ∧
    (pollForResult "exec-1" 10000 5000 none).1.status = ExecutionStatus.processing ∧
    (pollForResult "exec-1" 10000 5000 none).1.status ≠ ExecutionStatus.completed ∧
    (pollForResult "exec-1" 10000 5000 none).1.status ≠ ExecutionStatus.failed ∧
    (pollForResult "exec-1" 10000 5000 none).1.error = none := by
  refine ⟨rfl, rfl, by decide, by decide, rfl⟩

/-! ## Claim C2 -/

/-- Claim C2 (code_bug evidence): when the webhook response carries no
payload data and the agent has no polling configured, `executeAgent`
returns a fabricated finished result: status `completed` (not
`processing`) with the hardcoded BigBuckBunny sample URL and an
"executed successfully" note that nothing confirmed. -/
theorem executeAgent_fabricates_completed_result :
    (executeAgent jsStub sampleRegistry
        (.response 200 "" emptyDataResponse) sampleEnv "video-agent"
        { prompt := some "a red fox" }).1 =
      Except.ok
        { id := "exec-1", agentId := "video-agent",
          status := ExecutionStatus.completed,
          input := { prompt := some "a red fox" },
          output := some fabricatedSampleOutput,
          createdAt := 100, completedAt := some 200 } ∧
    pollingConfigured sampleTextAgent = false ∧
    emptyDataResponse.data = none ∧
    fabricatedSampleOutput.data =
      JValue.str "https://commondatastorage.googleapis.com/gtv-videos-bucket/sample/BigBuckBunny.mp4" ∧
    ExecutionStatus.completed ≠ ExecutionStatus.processing := by
  refine ⟨rfl, rfl, rfl, rfl, by decide⟩

/-! ## Claim C3 -/

/-- Claim C3 (counterexample): looking up the missing id "missing-agent",
`executeAgent` throws the registry's `AgentValidationError` — a plain
`Error` outside the ExecutionBaseError taxonomy, which the error
normalizer classifies as UNKNOWN_ERROR, not AGENT_NOT_FOUND — and creates
no Execution.  So the call does not fail with an AGENT_NOT_FOUND error as
the claim states. -/
theorem executeAgent_missing_agent_not_agent_not_found_code :
    executeAgent jsStub (fun _ => none) (.response 200 "" emptyDataResponse)
        sampleEnv "missing-agent" {} =
      (Except.error (JSError.agentValidationError "Agent not found: missing-agent" none),
       []) ∧
    (JSError.agentValidationError "Agent not found: missing-agent" none).isExecutionBaseError
      = false ∧
    (parseError (JSError.agentValidationError "Agent not found: missing-agent" none)).code
      = "UNKNOWN_ERROR" ∧
    "UNKNOWN_ERROR" ≠ "AGENT_NOT_FOUND" := by
  refine ⟨rfl, rfl, rfl, by decide⟩

/-- Claim C3 (amended): for every agent id absent from the registry,
executeAgent fails immediately by rethrowing the registry's
AgentValidationError with message "Agent not found: {agentId}" (normalized
to UNKNOWN_ERROR rather than AGENT_NOT_FOUND), and no Execution object is
ever created for that call. -/
theorem executeAgent_missing_agent_throws_and_creates_nothing
    (js : JSEnv) (reg : AgentRegistryMap) (outcome : FetchOutcome)
    (env : ExecEnv) (agentId : String) (input : ExecutionInput)
    (h : reg agentId = none) :
    executeAgent js reg outcome env agentId input =
      (Except.error (JSError.agentValidationError ("Agent not found: " ++ agentId) none),
       []) ∧
    (parseError (JSError.agentValidationError ("Agent not found: " ++ agentId) none)).code
      = "UNKNOWN_ERROR" := by
  unfold executeAgent getAgentOrThrow
  rw [h]
  exact ⟨rfl, rfl⟩

/-- Witness for the amended C3 theorem at the empty registry and id
"missing-agent". -/
theorem executeAgent_missing_agent_witness :
    ((fun _ => none : AgentRegistryMap) "missing-agent" = none) ∧
    (executeAgent jsStub (fun _ => none) (.response 200 "" emptyDataResponse)
        sampleEnv "missing-agent" {} =
      (Except.error (JSError.agentValidationError "Agent not found: missing-agent" none),
       []) ∧
     (parseError (JSError.agentValidationError "Agent not found: missing-agent" none)).code
      = "UNKNOWN_ERROR") :=
  ⟨rfl, executeAgent_missing_agent_throws_and_creates_nothing jsStub (fun _ => none)
    (.response 200 "" emptyDataResponse) sampleEnv "missing-agent" {} rfl⟩

/-! ## Claim C5 -/

/-- Claim C5: triggerWorkflow classifies failures as specified — 502/503
becomes a NetworkError("service temporarily unavailable"); 404 becomes a
WebhookError carrying the "not found / not activated" message and never a
NetworkError; any other non-2xx status becomes a WebhookError carrying the
status and response body; a thrown low-level connection failure (a fetch
TypeError or FetchError, no HTTP response at all) becomes a NetworkError
wrapping the underlying cause. -/
theorem triggerWorkflow_failure_classification
    (status : Nat) (body : String) (json : WebhookResponse) (m : String) :
    ((status = 502 ∨ status = 503) →
      triggerWorkflow (.response status body json) =
        Except.error (JSError.networkError serviceUnavailableMessage none)) ∧
    (status = 404 →
      triggerWorkflow (.response status body json) =
        Except.error (JSError.webhookError 404 webhookNotFoundMessage) ∧
      ∀ msg orig, triggerWorkflow (.response status body json) ≠
        Except.error (JSError.networkError msg orig)) ∧
    (¬(200 ≤ status ∧ status < 300) → status ≠ 502 → status ≠ 503 → status ≠ 404 →
      triggerWorkflow (.response status body json) =
        Except.error (JSError.webhookError status body)) ∧
    (triggerWorkflow (.thrown (.typeError m)) =
      Except.error (JSError.networkError unableToConnectMessage (some m))) ∧
    (triggerWorkflow (.thrown (.errorWithName "FetchError" m)) =
      Except.error (JSError.networkError unableToConnectMessage (some m))) := by
  refine ⟨?_, ?_, ?_, rfl, ?_⟩
  · rintro (rfl | rfl) <;> rfl
  · rintro rfl
    refine ⟨rfl, fun msg orig h => ?_⟩
    rw [show triggerWorkflow (.response 404 body json) =
      Except.error (JSError.webhookError 404 webhookNotFoundMessage) from rfl] at h
    simp at h
  · intro h2xx h502 h503 h404
    unfold triggerWorkflow triggerTryBlock
    simp only [if_neg h2xx,
      if_neg (show ¬(status = 503 ∨ status = 502) by
        rintro (h | h) <;> [exact h503 h; exact h502 h]),
      if_neg h404]
    rfl
  · rfl

/-- Witness for C5 at a 502 response, a 404 response, a 500 response and a
thrown TypeError. -/
theorem triggerWorkflow_failure_classification_witness :
    triggerWorkflow (.response 502 "bad gateway" emptyDataResponse) =
      Except.error (JSError.networkError serviceUnavailableMessage none) ∧
    triggerWorkflow (.response 404 "not found" emptyDataResponse) =
      Except.error (JSError.webhookError 404 webhookNotFoundMessage) ∧
    triggerWorkflow (.response 500 "boom" emptyDataResponse) =
      Except.error (JSError.webhookError 500 "boom") ∧
    triggerWorkflow (.thrown (.typeError "fetch failed")) =
      Except.error (JSError.networkError unableToConnectMessage (some "fetch failed")) :=
  ⟨(triggerWorkflow_failure_classification 502 "bad gateway" emptyDataResponse "").1
      (Or.inl rfl),
   ((triggerWorkflow_failure_classification 404 "not found" emptyDataResponse "").2.1
      rfl).1,
   (triggerWorkflow_failure_classification 500 "boom" emptyDataResponse "").2.2.1
      (by decide) (by decide) (by decide) (by decide),
   (triggerWorkflow_failure_classification 500 "" emptyDataResponse "fetch failed").2.2.2.1⟩

/-! ## Claim C6 -/

/-- Claim C6: under the default configuration, retryWithBackoff makes up to
3 total attempts on retryable failures (codes NETWORK_ERROR or
WEBHOOK_ERROR after normalization), waiting 1000 ms then 2000 ms between
attempts; the error rethrown on the final attempt, or on any
non-retryable failure, is the original thrown error, untouched; and a
normalized failure is retryable by default exactly when its code is
NETWORK_ERROR or WEBHOOK_ERROR. -/
theorem retryWithBackoff_default_behaviour
    (fn : Nat → Except JSError Unit) (e1 e2 e3 : JSError) :
    (fn 1 = .error e1 → fn 2 = .error e2 → fn 3 = .error e3 →
      isRetryableError (parseError e1) defaultRetryableErrors = true →
      isRetryableError (parseError e2) defaultRetryableErrors = true →
      retryWithBackoff fn {} = ⟨.error e3, [1000, 2000], 3⟩) ∧
    (fn 1 = .error e1 →
      isRetryableError (parseError e1) defaultRetryableErrors = false →
      retryWithBackoff fn {} = ⟨.error e1, [], 1⟩) ∧
    (fn 1 = .error e1 → fn 2 = .error e2 →
      isRetryableError (parseError e1) defaultRetryableErrors = true →
      isRetryableError (parseError e2) defaultRetryableErrors = false →
      retryWithBackoff fn {} = ⟨.error e2, [1000], 2⟩) ∧
    (∀ e : JSError,
      isRetryableError (parseError e) defaultRetryableErrors = true ↔
        ((parseError e).code = "NETWORK_ERROR" ∨ (parseError e).code = "WEBHOOK_ERROR")) := by
  refine ⟨?_, ?_, ?_, ?_⟩
  · intro h1 h2 h3 r1 r2
    show retryAux fn 1 1000 2 defaultRetryableErrors [] 2 = _
    simp only [retryAux, h1, h2, h3, r1, r2, if_true]
    rfl
  · intro h1 r1
    show retryAux fn 1 1000 2 defaultRetryableErrors [] 2 = _
    simp only [retryAux, h1, r1]
    rfl
  · intro h1 h2 r1 r2
    show retryAux fn 1 1000 2 defaultRetryableErrors [] 2 = _
    simp only [retryAux, h1, h2, r1, r2, if_true]
    rfl
  · intro e
    simp [isRetryableError, defaultRetryableErrors]

/-- A webhook operation that always fails with a connection-refused style
NetworkError. -/
def alwaysNetworkFailure : Nat → Except JSError Unit :=
  fun _ => .error (.networkError "connection refused" none)

/-- Witness for C6: the always-failing retryable operation is attempted 3
times with waits 1000 then 2000 ms and the original error is rethrown. -/
theorem retryWithBackoff_default_behaviour_witness :
    alwaysNetworkFailure 1 = .error (.networkError "connection refused" none) ∧
    isRetryableError (parseError (.networkError "connection refused" none))
      defaultRetryableErrors = true ∧
    retryWithBackoff alwaysNetworkFailure {} =
      ⟨.error (.networkError "connection refused" none), [1000, 2000], 3⟩ :=
  ⟨rfl, by decide,
   (retryWithBackoff_default_behaviour alwaysNetworkFailure
      (.networkError "connection refused" none)
      (.networkError "connection refused" none)
      (.networkError "connection refused" none)).1
    rfl rfl rfl (by decide) (by decide)⟩

/-! ## Supporting lemmas on association lists -/

theorem getA_setA_self {α : Type} (m : List (String × α)) (k : String) (v : α) :
    getA (setA m k v) k = some v := by
  induction m with
  | nil => simp [setA, getA]
  | cons p rest ih =>
    obtain ⟨k', v'⟩ := p
    by_cases h : k' = k
    · simp [setA, getA, h]
    · simp [setA, getA, h, ih]

theorem getA_setA_ne {α : Type} (m : List (String × α)) (k k' : String) (v : α)
    (h : k' ≠ k) : getA (setA m k v) k' = getA m k' := by
  have hne : ¬(k = k') := fun he => h he.symm
  induction m with
  | nil =>
    simp only [setA, getA]
    rw [if_neg hne]
  | cons p rest ih =>
    obtain ⟨k'', v''⟩ := p
    by_cases hk : k'' = k
    · subst hk
      simp only [setA, if_pos rfl, getA]
      rw [if_neg hne, if_neg hne]
    · simp only [setA, if_neg hk, getA]
      by_cases hk' : k'' = k'
      · rw [if_pos hk', if_pos hk']
      · rw [if_neg hk', if_neg hk', ih]

theorem setA_setA {α : Type} (m : List (String × α)) (k : String) (v w : α) :
    setA (setA m k v) k w = setA m k w := by
  induction m with
  | nil => simp [setA]
  | cons p rest ih =>
    obtain ⟨k', v'⟩ := p
    by_cases h : k' = k
    · simp [setA, h]
    · simp [setA, h, ih]

theorem mem_setA {α : Type} {m : List (String × α)} {k : String} {v : α}
    {p : String × α} (h : p ∈ setA m k v) : p = (k, v) ∨ p ∈ m := by
  induction m with
  | nil => simpa [setA] using h
  | cons q rest ih =>
    obtain ⟨k', v'⟩ := q
    by_cases hk : k' = k
    · simp only [setA, if_pos hk, List.mem_cons] at h
      rcases h with h | h
      · exact Or.inl h
      · exact Or.inr (List.mem_cons_of_mem _ h)
    · simp only [setA, if_neg hk, List.mem_cons] at h
      rcases h with h | h
      · exact Or.inr (by simp [h])
      · rcases ih h with h' | h'
        · exact Or.inl h'
        · exact Or.inr (List.mem_cons_of_mem _ h')

theorem getA_eq_none_of_not_key {α : Type} (m : List (String × α)) (a : String)
    (h : a ∉ m.map Prod.fst) : getA m a = none := by
  induction m with
  | nil => rfl
  | cons p rest ih =>
    simp only [List.map_cons, List.mem_cons, not_or] at h
    rw [getA, if_neg (fun he => h.1 he.symm)]
    exact ih h.2

/-! ## Supporting lemmas on the storage service -/

/-- When the direct write fits, saveExecutions stores the 50 most recent
entries directly. -/
theorem saveExecutions_of_ok {ok : QuotaOracle} (st : Storage) (agentId : String)
    (v : List Execution) (h : ok agentId (v.take 50) = true) :
    saveExecutions ok st agentId v = (setA st agentId (v.take 50), false) := by
  simp [saveExecutions, trySetItem, h]

/-- freeUpAux leaves every per-agent stored list within the cap. -/
theorem freeUpAux_capped {ok : QuotaOracle} {st : Storage}
    (h : AllCapped st) (ids : List String) : AllCapped (freeUpAux ok st ids) := by
  induction ids generalizing st with
  | nil => exact h
  | cons b rest ih =>
    unfold freeUpAux
    by_cases hb : 10 < (loadExecutions st b).length
    · simp only [if_pos hb]
      unfold trySetItem
      by_cases hok : ok b ((loadExecutions st b).take 10) = true
      · simp only [hok, if_pos rfl]
        refine ih (fun p hp => ?_)
        rcases mem_setA hp with h' | h'
        · subst h'
          exact le_trans (List.length_take_le _ _) (by norm_num)
        · exact h p h'
      · simp only [hok]
        simpa using h
    · simp only [if_neg hb]
      exact ih h

/-- Every stored list left by saveExecutions is within the cap. -/
theorem saveExecutions_capped {ok : QuotaOracle} {st : Storage}
    (h : AllCapped st) (agentId : String) (v : List Execution) :
    AllCapped (saveExecutions ok st agentId v).1 := by
  have hset : ∀ (st' : Storage) (n : Nat), n ≤ 50 → AllCapped st' →
      AllCapped (setA st' agentId (v.take n)) := by
    intro st' n hn hst' p hp
    rcases mem_setA hp with h' | h'
    · subst h'
      exact le_trans (List.length_take_le _ _) hn
    · exact hst' p h'
  unfold saveExecutions trySetItem
  by_cases h50 : ok agentId (v.take 50) = true
  · simpa [h50] using hset st 50 (by norm_num) h
  · simp only [h50, Bool.false_eq_true, if_false]
    unfold handleQuotaExceeded trySetItem
    by_cases h10 : ok agentId (v.take 10) = true
    · simpa [h10] using hset st 10 (by norm_num) h
    · simp only [h10, Bool.false_eq_true, if_false]
      have hF : AllCapped (freeUpSpace ok st) := freeUpAux_capped h _
      by_cases h5 : ok agentId (v.take 5) = true
      · simpa [h5] using hset (freeUpSpace ok st) 5 (by norm_num) hF
      · simpa [h5] using hF

/-- After freeUpAux over distinct agent ids whose truncation writes all
fit, each listed agent's stored history is its former value truncated to
the 10 most recent entries (and unlisted keys are untouched). -/
theorem freeUpAux_load {ok : QuotaOracle} (ids : List String) (hnd : ids.Nodup) :
    ∀ st : Storage,
      (∀ a ∈ ids, ok a ((loadExecutions st a).take 10) = true) →
      ∀ a, loadExecutions (freeUpAux ok st ids) a =
        if a ∈ ids ∧ 10 < (loadExecutions st a).length
        then (loadExecutions st a).take 10 else loadExecutions st a := by
  induction ids with
  | nil =>
    intro st _ a
    simp [freeUpAux]
  | cons b rest ih =>
    intro st hok a
    have hnd' : rest.Nodup := hnd.of_cons
    have hbrest : b ∉ rest := (List.nodup_cons.mp hnd).1
    by_cases hb : 10 < (loadExecutions st b).length
    · have hokb : ok b ((loadExecutions st b).take 10) = true :=
        hok b (List.mem_cons_self _ _)
      have hred : freeUpAux ok st (b :: rest) =
          freeUpAux ok (setA st b ((loadExecutions st b).take 10)) rest := by
        simp [freeUpAux, hb, trySetItem, hokb]
      set st1 := setA st b ((loadExecutions st b).take 10) with hst1
      have hload1 : ∀ x, x ≠ b → loadExecutions st1 x = loadExecutions st x := by
        intro x hx
        simp [loadExecutions, hst1, getA_setA_ne st b x _ hx]
      have hok1 : ∀ x ∈ rest, ok x ((loadExecutions st1 x).take 10) = true := by
        intro x hx
        rw [hload1 x (fun he => hbrest (he ▸ hx))]
        exact hok x (List.mem_cons_of_mem _ hx)
      rw [hred, ih hnd' st1 hok1 a]
      by_cases hab : a = b
      · subst hab
        rw [if_neg (by simp [hbrest])]
        have hl1 : loadExecutions st1 a = (loadExecutions st a).take 10 := by
          simp [loadExecutions, hst1, getA_setA_self]
        rw [hl1, if_pos ⟨List.mem_cons_self _ _, hb⟩]
      · rw [hload1 a hab]
        by_cases har : a ∈ rest
        · simp [har, hab]
        · simp [har, hab]
    · have hred : freeUpAux ok st (b :: rest) = freeUpAux ok st rest := by
        simp [freeUpAux, hb]
      rw [hred, ih hnd' st (fun x hx => hok x (List.mem_cons_of_mem _ hx)) a]
      by_cases hab : a = b
      · subst hab
        rw [if_neg (by simp [hbrest]), if_neg (by simp [hb])]
      · by_cases har : a ∈ rest
        · simp [har, hab]
        · simp [har, hab]

/-! ## Claim C7 -/

/-- Claim C7: when the direct write of an agent's execution list fails with
a quota-exceeded error, saveExecutions retries with only the 10 most
recent entries; if that also fails it runs the global free-up (every
agent's stored history longer than 10 entries is independently truncated
to its 10 most recent, assuming the truncation writes fit) and retries
once more with only the 5 most recent entries; and if that final attempt
fails it raises a quota-exceeded error to the caller. -/
theorem saveExecutions_quota_cascade (ok : QuotaOracle) (st : Storage)
    (agentId : String) (execs : List Execution)
    (hfull : ok agentId (execs.take 50) = false) :
    (ok agentId (execs.take 10) = true →
      saveExecutions ok st agentId execs =
        (setA st agentId (execs.take 10), false)) ∧
    (ok agentId (execs.take 10) = false →
      ((ok agentId (execs.take 5) = true →
        saveExecutions ok st agentId execs =
          (setA (freeUpSpace ok st) agentId (execs.take 5), false)) ∧
      (ok agentId (execs.take 5) = false →
        saveExecutions ok st agentId execs = (freeUpSpace ok st, true)))) ∧
    (NodupKeys st →
      (∀ a ∈ agentIdsWithExecutions st, ok a ((loadExecutions st a).take 10) = true) →
      ∀ a, loadExecutions (freeUpSpace ok st) a =
        if 10 < (loadExecutions st a).length
        then (loadExecutions st a).take 10 else loadExecutions st a) := by
  refine ⟨?_, ?_, ?_⟩
  · intro h10
    simp [saveExecutions, trySetItem, hfull, handleQuotaExceeded, h10]
  · intro h10
    constructor
    · intro h5
      simp [saveExecutions, trySetItem, hfull, handleQuotaExceeded, h10, h5,
        freeUpSpace]
    · intro h5
      simp [saveExecutions, trySetItem, hfull, handleQuotaExceeded, h10, h5,
        freeUpSpace]
  · intro hnd hok a
    have h := freeUpAux_load (agentIdsWithExecutions st) hnd st hok a
    rw [freeUpSpace, h]
    by_cases hmem : a ∈ agentIdsWithExecutions st
    · simp [hmem]
    · have hget : getA st a = none :=
        getA_eq_none_of_not_key st a (by simpa [agentIdsWithExecutions] using hmem)
      have hload : loadExecutions st a = [] := by simp [loadExecutions, hget]
      simp [hload, hmem]

/-- Witness for C7: with 12 stored executions and a quota admitting at most
10 entries, the retry with the 10 most recent succeeds; with a quota
admitting at most 5 entries the free-up is followed by a successful write
of the 5 most recent; with a quota admitting nothing the final attempt
throws a quota-exceeded error; and the free-up truncates a 12-entry
neighbour to its 10 most recent. -/
theorem saveExecutions_quota_cascade_witness :
    okCap 10 "agent-a" ((mkExecs "agent-a" 12).take 50) = false ∧
    saveExecutions (okCap 10) [] "agent-a" (mkExecs "agent-a" 12) =
      (setA [] "agent-a" ((mkExecs "agent-a" 12).take 10), false) ∧
    saveExecutions (okCap 5) [] "agent-a" (mkExecs "agent-a" 12) =
      (setA (freeUpSpace (okCap 5) []) "agent-a" ((mkExecs "agent-a" 12).take 5),
        false) ∧
    saveExecutions (okCap 0) [] "agent-a" (mkExecs "agent-a" 12) =
      (freeUpSpace (okCap 0) [], true) ∧
    loadExecutions
      (freeUpSpace (okCap 10) [("agent-b", mkExecs "agent-b" 12)]) "agent-b" =
      (mkExecs "agent-b" 12).take 10 := by
  refine ⟨by decide, ?_, ?_, ?_, ?_⟩
  · exact (saveExecutions_quota_cascade (okCap 10) [] "agent-a"
      (mkExecs "agent-a" 12) (by decide)).1 (by decide)
  · exact ((saveExecutions_quota_cascade (okCap 5) [] "agent-a"
      (mkExecs "agent-a" 12) (by decide)).2.1 (by decide)).1 (by decide)
  · exact ((saveExecutions_quota_cascade (okCap 0) [] "agent-a"
      (mkExecs "agent-a" 12) (by decide)).2.1 (by decide)).2 (by decide)
  · have h := (saveExecutions_quota_cascade (okCap 10)
      [("agent-b", mkExecs "agent-b" 12)] "agent-a"
      (mkExecs "agent-a" 12) (by decide)).2.2 (by decide) (by decide) "agent-b"
    rw [show loadExecutions [("agent-b", mkExecs "agent-b" 12)] "agent-b" =
      mkExecs "agent-b" 12 from rfl] at h
    rw [if_pos (by decide)] at h
    exact h

/-! ## Claim C4 -/

/-- Claim C4: addExecution keeps every agent's in-memory and stored list
within 50 entries; the owning agent's new in-memory list is the new
execution prepended to the old list and truncated to 50 (newest first by
completion of add); when the old list already held 50 entries, exactly the
oldest (last) entry is evicted and no other; and when the persisted write
fits, the stored list equals the in-memory list. -/
theorem addExecution_cap_and_eviction (ok : QuotaOracle) (s : StoreState)
    (e : Execution) (hmem : AllCapped s.executions) (hsto : AllCapped s.storage) :
    AllCapped (addExecution ok e s).executions ∧
    AllCapped (addExecution ok e s).storage ∧
    (getA (addExecution ok e s).executions e.agentId).getD [] =
      (e :: (getA s.executions e.agentId).getD []).take 50 ∧
    (((getA s.executions e.agentId).getD []).length = 50 →
      (getA (addExecution ok e s).executions e.agentId).getD [] =
        e :: ((getA s.executions e.agentId).getD []).dropLast) ∧
    (ok e.agentId ((e :: (getA s.executions e.agentId).getD []).take 50) = true →
      loadExecutions (addExecution ok e s).storage e.agentId =
        (getA (addExecution ok e s).executions e.agentId).getD []) := by
  set old := (getA s.executions e.agentId).getD [] with hold
  have hexe : (addExecution ok e s).executions =
      setA s.executions e.agentId ((e :: old).take 50) := rfl
  have hsto' : (addExecution ok e s).storage =
      (saveExecutions ok s.storage e.agentId ((e :: old).take 50)).1 := rfl
  have hagent : (getA (addExecution ok e s).executions e.agentId).getD [] =
      (e :: old).take 50 := by
    rw [hexe, getA_setA_self]
    rfl
  refine ⟨?_, ?_, hagent, ?_, ?_⟩
  · intro p hp
    rw [hexe] at hp
    rcases mem_setA hp with h' | h'
    · subst h'
      exact List.length_take_le _ _
    · exact hmem p h'
  · rw [hsto']
    exact saveExecutions_capped hsto _ _
  · intro hl
    rw [hagent, List.take_succ_cons, List.dropLast_eq_take, hl]
  · intro hok
    have hfit : ok e.agentId (((e :: old).take 50).take 50) = true := by
      rwa [List.take_take, min_self]
    rw [hsto', saveExecutions_of_ok _ _ _ hfit, hagent]
    unfold loadExecutions
    rw [getA_setA_self, List.take_take, min_self]
    rfl

/-- Witness for C4 at a store holding exactly 50 executions for agent-a:
adding a 51st evicts exactly the oldest. -/
theorem addExecution_cap_and_eviction_witness :
    AllCapped fullAgentState.executions ∧
    AllCapped fullAgentState.storage ∧
    ((getA fullAgentState.executions "agent-a").getD []).length = 50 ∧
    (getA (addExecution okAll pendingExec fullAgentState).executions
        "agent-a").getD [] =
      pendingExec :: (mkExecs "agent-a" 50).dropLast ∧
    loadExecutions (addExecution okAll pendingExec fullAgentState).storage
        "agent-a" =
      (getA (addExecution okAll pendingExec fullAgentState).executions
        "agent-a").getD [] := by
  refine ⟨by decide, by decide, by decide, ?_, ?_⟩
  · exact (addExecution_cap_and_eviction okAll fullAgentState pendingExec
      (by decide) (by decide)).2.2.2.1 (by decide)
  · exact (addExecution_cap_and_eviction okAll fullAgentState pendingExec
      (by decide) (by decide)).2.2.2.2 (by decide)

/-! ## Claim C10 -/

theorem findExecEntry_eq_none (m : List (String × List Execution)) (id : String)
    (h : ∀ p ∈ m, ∀ e ∈ p.2, e.id ≠ id) : findExecEntry m id = none := by
  induction m with
  | nil => rfl
  | cons p rest ih =>
    obtain ⟨a, la⟩ := p
    have hfind : la.find? (fun e => decide (e.id = id)) = none :=
      List.find?_eq_none.mpr (fun x hx => by
        simpa using h (a, la) (List.mem_cons_self _ _) x hx)
    rw [findExecEntry, hfind]
    exact ih (fun q hq => h q (List.mem_cons_of_mem _ hq))

/-- Claim C10: for an execution id present in no agent's list,
updateExecution is a complete no-op at the public interface: the in-memory
executions map, the current-execution pointer, the executing flag and the
persisted storage are all unchanged. -/
theorem updateExecution_absent_id_noop (ok : QuotaOracle) (id : String)
    (u : ExecutionUpdate) (s : StoreState)
    (h : ∀ p ∈ s.executions, ∀ e ∈ p.2, e.id ≠ id) :
    updateExecution ok id u s = s := by
  rw [updateExecution, findExecEntry_eq_none _ _ h]

/-- Witness for C10 at a one-execution store and an id absent from it. -/
theorem updateExecution_absent_id_noop_witness :
    (∀ p ∈ oneExecState.executions, ∀ e ∈ p.2, e.id ≠ "missing-id") ∧
    updateExecution okAll "missing-id" {} oneExecState = oneExecState :=
  ⟨by decide,
   updateExecution_absent_id_noop okAll "missing-id" {} oneExecState (by decide)⟩

/-! ## Claim C8 -/

theorem isActiveStatus_iff (st : ExecutionStatus) :
    isActiveStatus st = true ↔
      (st = ExecutionStatus.pending ∨ st = ExecutionStatus.processing) := by
  simp [isActiveStatus]

theorem execFlagInv_addExecution (ok : QuotaOracle) (e : Execution)
    (s : StoreState) : ExecFlagInv (addExecution ok e s) := by
  simp only [ExecFlagInv, addExecution]
  constructor
  · intro h
    exact ⟨e, rfl, (isActiveStatus_iff _).mp h⟩
  · rintro ⟨e', he', hst⟩
    cases he'
    exact (isActiveStatus_iff _).mpr hst

theorem execFlagInv_applyUpdate (ok : QuotaOracle) (id : String)
    (u : ExecutionUpdate) (s : StoreState) (a : String) (found : Execution)
    (h : ExecFlagInv s) : ExecFlagInv (applyUpdate ok id u s a found) := by
  unfold ExecFlagInv at h ⊢
  unfold applyUpdate
  cases hc : s.currentExecution with
  | none =>
    simp only [hc] at h ⊢
    simpa using h
  | some c =>
    simp only [hc] at h ⊢
    by_cases hcid : c.id = id
    · simp only [hcid, decide_eq_true_eq, if_true]
      constructor
      · intro ht
        exact ⟨_, rfl, (isActiveStatus_iff _).mp ht⟩
      · rintro ⟨e', he', hst⟩
        cases he'
        exact (isActiveStatus_iff _).mpr hst
    · have hdec : decide (c.id = id) = false := by simp [hcid]
      simp only [hdec, Bool.false_eq_true, if_false]
      exact h

theorem execFlagInv_updateExecution (ok : QuotaOracle) (id : String)
    (u : ExecutionUpdate) (s : StoreState) (h : ExecFlagInv s) :
    ExecFlagInv (updateExecution ok id u s) := by
  rw [updateExecution]
  cases hf : findExecEntry s.executions id with
  | none => exact h
  | some p => exact execFlagInv_applyUpdate ok id u s p.1 p.2 h

theorem execFlagInv_setCurrentExecution (oe : Option Execution) (s : StoreState) :
    ExecFlagInv (setCurrentExecution oe s) := by
  unfold ExecFlagInv setCurrentExecution
  cases oe with
  | none => simp
  | some e =>
    simp only
    constructor
    · intro ht
      exact ⟨e, rfl, (isActiveStatus_iff _).mp ht⟩
    · rintro ⟨e', he', hst⟩
      cases he'
      exact (isActiveStatus_iff _).mpr hst

theorem execFlagInv_loadHistory (agentId : String) (s : StoreState)
    (h : ExecFlagInv s) : ExecFlagInv (loadHistory agentId s) := by
  unfold ExecFlagInv loadHistory
  split <;> exact h

theorem execFlagInv_clearHistory (agentId : String) (s : StoreState)
    (h : ExecFlagInv s)
    (hg : ∀ c, s.currentExecution = some c → c.agentId = agentId →
      isActiveStatus c.status = false) :
    ExecFlagInv (clearHistory agentId s) := by
  unfold ExecFlagInv at h ⊢
  unfold clearHistory
  cases hc : s.currentExecution with
  | none =>
    simp only [hc] at h ⊢
    simpa using h
  | some c =>
    simp only [hc] at h ⊢
    by_cases hca : c.agentId = agentId
    · simp only [hca, if_pos]
      have hfalse : isActiveStatus c.status = false := hg c hc hca
      constructor
      · intro ht
        obtain ⟨e', he', hst⟩ := h.mp ht
        cases he'
        rw [(isActiveStatus_iff _).mpr hst] at hfalse
        cases hfalse
      · rintro ⟨e', he', _⟩
        cases he'
    · simp only [hca, ite_false, if_neg]
      exact h

theorem execFlagInv_safeStep {s s' : StoreState} (h : ExecFlagInv s)
    (hstep : SafeStoreStep s s') : ExecFlagInv s' := by
  cases hstep with
  | add ok e s => exact execFlagInv_addExecution ok e s
  | update ok id u s => exact execFlagInv_updateExecution ok id u s h
  | setCur oe s => exact execFlagInv_setCurrentExecution oe s
  | load agentId s => exact execFlagInv_loadHistory agentId s h
  | clear agentId s hguard => exact execFlagInv_clearHistory agentId s h hguard

/-- Claim C8 (amended): the executing flag equals "current execution exists
with status pending or processing" in every state reachable by
addExecution, updateExecution, setCurrentExecution, loadHistory, and
clearHistory calls that never clear the agent owning a pending/processing
current execution. -/
theorem execFlagInv_of_reachableSafe (s : StoreState)
    (h : ReachableSafeStore s) : ExecFlagInv s := by
  induction h with
  | init =>
    simp [ExecFlagInv, initialState, initialStateOver]
  | step _ hstep ih => exact execFlagInv_safeStep ih hstep

/-- Witness for the amended C8 theorem at the initial state. -/
theorem execFlagInv_of_reachableSafe_witness : ExecFlagInv initialState :=
  execFlagInv_of_reachableSafe initialState ReachableSafeStore.init

/-! ## Supporting lemmas for claim C9 -/

theorem getD_absorb {α : Type} (o : Option α) (x : α) :
    o.getD (o.getD x) = o.getD x := by
  cases o <;> rfl

/-- Re-applying the same spread merge is absorbed. -/
theorem mergeExec_mergeExec (e : Execution) (u : ExecutionUpdate) :
    mergeExec (mergeExec e u) u = mergeExec e u := by
  simp [mergeExec, getD_absorb]

/-- Re-applying the same replacement map is absorbed. -/
theorem map_replace_idem (la : List Execution) (id : String) (upd : Execution) :
    (la.map (fun e => if e.id = id then upd else e)).map
      (fun e => if e.id = id then upd else e) =
    la.map (fun e => if e.id = id then upd else e) := by
  rw [List.map_map]
  apply List.map_congr_left
  intro y _
  by_cases hy : y.id = id
  · simp [Function.comp, hy, ite_self]
  · simp [Function.comp, hy]

theorem find?_map_replace_some {la : List Execution} {id : String}
    {e0 upd : Execution}
    (h : la.find? (fun e => decide (e.id = id)) = some e0) (hupd : upd.id = id) :
    (la.map (fun e => if e.id = id then upd else e)).find?
      (fun e => decide (e.id = id)) = some upd := by
  induction la with
  | nil => cases h
  | cons y ys ih =>
    by_cases hy : y.id = id
    · rw [List.map_cons, if_pos hy]
      exact List.find?_cons_of_pos _ (by simp [hupd])
    · rw [List.find?_cons_of_neg _ (by simp [hy])] at h
      rw [List.map_cons, if_neg hy, List.find?_cons_of_neg _ (by simp [hy])]
      exact ih h

theorem find?_map_replace_all_ne {la : List Execution} {id : String}
    {upd : Execution} (hupd : upd.id ≠ id) :
    (la.map (fun e => if e.id = id then upd else e)).find?
      (fun e => decide (e.id = id)) = none := by
  apply List.find?_eq_none.mpr
  intro x hx
  rcases List.mem_map.mp hx with ⟨y, _, rfl⟩
  by_cases hy : y.id = id
  · simp [hy, hupd]
  · simp [hy]

theorem findExecEntry_some_spec {m : List (String × List Execution)} {id a : String}
    {found : Execution} (h : findExecEntry m id = some (a, found)) :
    ∃ la, (a, la) ∈ m ∧ found ∈ la ∧ found.id = id := by
  induction m with
  | nil => cases h
  | cons p rest ih =>
    obtain ⟨b, lb⟩ := p
    rw [findExecEntry] at h
    cases hf : lb.find? (fun e => decide (e.id = id)) with
    | some e0 =>
      rw [hf] at h
      simp only [Option.some.injEq, Prod.mk.injEq] at h
      obtain ⟨rfl, rfl⟩ := h
      exact ⟨lb, List.mem_cons_self _ _, List.mem_of_find?_eq_some hf,
        by simpa using List.find?_some hf⟩
    | none =>
      rw [hf] at h
      obtain ⟨la, hmem, hfound, hid⟩ := ih h
      exact ⟨la, List.mem_cons_of_mem _ hmem, hfound, hid⟩

/-- When the merged execution keeps the looked-up id, the second scan finds
it again at the same agent, as the merged record. -/
theorem findExecEntry_after_replace_pos {id : String} {upd : Execution}
    (hupd : upd.id = id) :
    ∀ (m : List (String × List Execution)) (a : String) (found : Execution),
      NodupKeys m → findExecEntry m id = some (a, found) →
      findExecEntry
        (setA m a (((getA m a).getD []).map (fun e => if e.id = id then upd else e)))
        id = some (a, upd) := by
  intro m
  induction m with
  | nil => intro a found _ h; cases h
  | cons p rest ih =>
    intro a found hnd h
    obtain ⟨b, lb⟩ := p
    rw [findExecEntry] at h
    cases hf : lb.find? (fun e => decide (e.id = id)) with
    | some e0 =>
      rw [hf] at h
      simp only [Option.some.injEq, Prod.mk.injEq] at h
      obtain ⟨rfl, rfl⟩ := h
      rw [show getA ((b, lb) :: rest) b = some lb by simp [getA],
        Option.getD_some,
        show setA ((b, lb) :: rest) b
            (lb.map (fun e => if e.id = id then upd else e)) =
          (b, lb.map (fun e => if e.id = id then upd else e)) :: rest
          by simp [setA],
        findExecEntry, find?_map_replace_some hf hupd]
    | none =>
      rw [hf] at h
      obtain ⟨la, hmem, _, _⟩ := findExecEntry_some_spec h
      have hbne : b ≠ a := by
        intro he
        subst he
        have hkey : b ∈ rest.map Prod.fst := List.mem_map.mpr ⟨(b, la), hmem, rfl⟩
        exact (List.nodup_cons.mp (by simpa [NodupKeys] using hnd)).1 hkey
      rw [show getA ((b, lb) :: rest) a = getA rest a by simp [getA, hbne],
        show setA ((b, lb) :: rest) a
            (((getA rest a).getD []).map (fun e => if e.id = id then upd else e)) =
          (b, lb) :: setA rest a
            (((getA rest a).getD []).map (fun e => if e.id = id then upd else e))
          by simp [setA, hbne],
        findExecEntry, hf]
      exact ih a found (by simpa [NodupKeys] using
        (List.nodup_cons.mp (by simpa [NodupKeys] using hnd)).2) h

/-- When the merged execution changes the looked-up id, the second scan
finds nothing (ids being unique across agents). -/
theorem findExecEntry_after_replace_neg {id : String} {upd : Execution}
    (hupd : upd.id ≠ id) :
    ∀ (m : List (String × List Execution)) (a : String) (found : Execution),
      NodupKeys m → CrossUniqueIds m → findExecEntry m id = some (a, found) →
      findExecEntry
        (setA m a (((getA m a).getD []).map (fun e => if e.id = id then upd else e)))
        id = none := by
  intro m
  induction m with
  | nil => intro a found _ _ h; cases h
  | cons p rest ih =>
    intro a found hnd hcross h
    obtain ⟨b, lb⟩ := p
    rw [findExecEntry] at h
    cases hf : lb.find? (fun e => decide (e.id = id)) with
    | some e0 =>
      rw [hf] at h
      simp only [Option.some.injEq, Prod.mk.injEq] at h
      have he0mem : e0 ∈ lb := List.mem_of_find?_eq_some hf
      have he0id : e0.id = id := by simpa using List.find?_some hf
      rw [← h.1]
      rw [show getA ((b, lb) :: rest) b = some lb by simp [getA],
        Option.getD_some,
        show setA ((b, lb) :: rest) b
            (lb.map (fun e => if e.id = id then upd else e)) =
          (b, lb.map (fun e => if e.id = id then upd else e)) :: rest
          by simp [setA],
        findExecEntry, find?_map_replace_all_ne hupd]
      apply findExecEntry_eq_none
      intro q hq y hy hyid
      have hrel := (List.pairwise_cons.mp hcross).1 q hq
      exact hrel e0 he0mem y hy (by rw [he0id, hyid])
    | none =>
      rw [hf] at h
      obtain ⟨la, hmem, _, _⟩ := findExecEntry_some_spec h
      have hbne : b ≠ a := by
        intro he
        subst he
        have hkey : b ∈ rest.map Prod.fst := List.mem_map.mpr ⟨(b, la), hmem, rfl⟩
        exact (List.nodup_cons.mp (by simpa [NodupKeys] using hnd)).1 hkey
      rw [show getA ((b, lb) :: rest) a = getA rest a by simp [getA, hbne],
        show setA ((b, lb) :: rest) a
            (((getA rest a).getD []).map (fun e => if e.id = id then upd else e)) =
          (b, lb) :: setA rest a
            (((getA rest a).getD []).map (fun e => if e.id = id then upd else e))
          by simp [setA, hbne],
        findExecEntry, hf]
      exact ih a found
        (by simpa [NodupKeys] using
          (List.nodup_cons.mp (by simpa [NodupKeys] using hnd)).2)
        ((List.pairwise_cons.mp hcross).2) h

theorem applyUpdate_executions (ok : QuotaOracle) (id : String)
    (u : ExecutionUpdate) (s : StoreState) (a : String) (found : Execution) :
    (applyUpdate ok id u s a found).executions =
      setA s.executions a
        (((getA s.executions a).getD []).map
          (fun e => if e.id = id then mergeExec found u else e)) := rfl

theorem applyUpdate_storage (ok : QuotaOracle) (id : String)
    (u : ExecutionUpdate) (s : StoreState) (a : String) (found : Execution) :
    (applyUpdate ok id u s a found).storage =
      (saveExecutions ok s.storage a
        (((getA s.executions a).getD []).map
          (fun e => if e.id = id then mergeExec found u else e))).1 := rfl

theorem applyUpdate_current_of_none (ok : QuotaOracle) (id : String)
    (u : ExecutionUpdate) (s : StoreState) (a : String) (found : Execution)
    (hc : s.currentExecution = none) :
    (applyUpdate ok id u s a found).currentExecution = none ∧
    (applyUpdate ok id u s a found).isExecuting = s.isExecuting := by
  unfold applyUpdate
  simp [hc]

theorem applyUpdate_current_of_eq (ok : QuotaOracle) (id : String)
    (u : ExecutionUpdate) (s : StoreState) (a : String) (found c : Execution)
    (hc : s.currentExecution = some c) (hcid : c.id = id) :
    (applyUpdate ok id u s a found).currentExecution = some (mergeExec found u) ∧
    (applyUpdate ok id u s a found).isExecuting =
      isActiveStatus (mergeExec found u).status := by
  unfold applyUpdate
  simp [hc, hcid]

theorem applyUpdate_current_of_ne (ok : QuotaOracle) (id : String)
    (u : ExecutionUpdate) (s : StoreState) (a : String) (found c : Execution)
    (hc : s.currentExecution = some c) (hcid : ¬c.id = id) :
    (applyUpdate ok id u s a found).currentExecution = some c ∧
    (applyUpdate ok id u s a found).isExecuting = s.isExecuting := by
  unfold applyUpdate
  simp [hc, hcid]

theorem storeState_eq {s t : StoreState} (h1 : s.executions = t.executions)
    (h2 : s.currentExecution = t.currentExecution)
    (h3 : s.isExecuting = t.isExecuting) (h4 : s.storage = t.storage) :
    s = t := by
  cases s
  cases t
  simp only at h1 h2 h3 h4
  rw [h1, h2, h3, h4]

/-! ## Claim C9 -/

/-- Claim C9: applying the same partial update twice yields the same final
record and store state as applying it once — the executions map, current
pointer and executing flag are unconditionally idempotent (given the data
model's cross-agent uniqueness of ids and unique object keys), and the
persisted storage too whenever the persisted writes fit the quota. -/
theorem updateExecution_idem (ok : QuotaOracle) (id : String)
    (u : ExecutionUpdate) (s : StoreState)
    (hnd : NodupKeys s.executions) (hcross : CrossUniqueIds s.executions) :
    ((updateExecution ok id u (updateExecution ok id u s)).executions =
        (updateExecution ok id u s).executions ∧
      (updateExecution ok id u (updateExecution ok id u s)).currentExecution =
        (updateExecution ok id u s).currentExecution ∧
      (updateExecution ok id u (updateExecution ok id u s)).isExecuting =
        (updateExecution ok id u s).isExecuting) ∧
    ((∀ k v, ok k v = true) →
      updateExecution ok id u (updateExecution ok id u s) =
        updateExecution ok id u s) := by
  cases hf : findExecEntry s.executions id with
  | none =>
    have h1 : updateExecution ok id u s = s := by
      rw [updateExecution, hf]
    simp only [h1]
    exact ⟨⟨trivial, trivial, trivial⟩, fun _ => trivial⟩
  | some p =>
    obtain ⟨a, found⟩ := p
    have h1 : updateExecution ok id u s = applyUpdate ok id u s a found := by
      rw [updateExecution, hf]
    by_cases hid : (mergeExec found u).id = id
    · -- the merged record keeps the id: the second pass rewrites to the
      -- same lists, pointer and storage
      have hf2 : findExecEntry (applyUpdate ok id u s a found).executions id =
          some (a, mergeExec found u) := by
        rw [applyUpdate_executions]
        exact findExecEntry_after_replace_pos hid s.executions a found hnd hf
      have h2 : updateExecution ok id u (applyUpdate ok id u s a found) =
          applyUpdate ok id u (applyUpdate ok id u s a found) a
            (mergeExec found u) := by
        rw [updateExecution, hf2]
      have hgetA1 : getA (applyUpdate ok id u s a found).executions a =
          some (((getA s.executions a).getD []).map
            (fun e => if e.id = id then mergeExec found u else e)) := by
        rw [applyUpdate_executions]
        exact getA_setA_self _ _ _
      have hlist2 :
          ((getA (applyUpdate ok id u s a found).executions a).getD []).map
            (fun e => if e.id = id then mergeExec (mergeExec found u) u else e) =
          ((getA s.executions a).getD []).map
            (fun e => if e.id = id then mergeExec found u else e) := by
        rw [hgetA1, Option.getD_some]
        simp only [mergeExec_mergeExec]
        exact map_replace_idem _ _ _
      have hexec : (applyUpdate ok id u (applyUpdate ok id u s a found) a
          (mergeExec found u)).executions =
          (applyUpdate ok id u s a found).executions := by
        rw [applyUpdate_executions, hlist2, applyUpdate_executions, setA_setA]
      have hcurflag :
          (applyUpdate ok id u (applyUpdate ok id u s a found) a
            (mergeExec found u)).currentExecution =
            (applyUpdate ok id u s a found).currentExecution ∧
          (applyUpdate ok id u (applyUpdate ok id u s a found) a
            (mergeExec found u)).isExecuting =
            (applyUpdate ok id u s a found).isExecuting := by
        cases hc : s.currentExecution with
        | none =>
          obtain ⟨hcu, hfl⟩ := applyUpdate_current_of_none ok id u s a found hc
          obtain ⟨hcu2, hfl2⟩ := applyUpdate_current_of_none ok id u
            (applyUpdate ok id u s a found) a (mergeExec found u) hcu
          exact ⟨by rw [hcu2, hcu], by rw [hfl2, hfl]⟩
        | some c =>
          by_cases hcid : c.id = id
          · obtain ⟨hcu, hfl⟩ := applyUpdate_current_of_eq ok id u s a found c
              hc hcid
            obtain ⟨hcu2, hfl2⟩ := applyUpdate_current_of_eq ok id u
              (applyUpdate ok id u s a found) a (mergeExec found u)
              (mergeExec found u) hcu hid
            exact ⟨by rw [hcu2, hcu, mergeExec_mergeExec],
              by rw [hfl2, hfl, mergeExec_mergeExec]⟩
          · obtain ⟨hcu, hfl⟩ := applyUpdate_current_of_ne ok id u s a found c
              hc hcid
            obtain ⟨hcu2, hfl2⟩ := applyUpdate_current_of_ne ok id u
              (applyUpdate ok id u s a found) a (mergeExec found u) c hcu hcid
            exact ⟨by rw [hcu2, hcu], by rw [hfl2, hfl]⟩
      refine ⟨?_, ?_⟩
      · rw [h1, h2]
        exact ⟨hexec, hcurflag.1, hcurflag.2⟩
      · intro hok
        rw [h1, h2]
        refine storeState_eq hexec hcurflag.1 hcurflag.2 ?_
        rw [applyUpdate_storage, hlist2,
          saveExecutions_of_ok _ _ _ (hok _ _),
          applyUpdate_storage,
          saveExecutions_of_ok _ _ _ (hok _ _)]
        dsimp only
        rw [setA_setA]
    · -- the merged record changed the id: the second pass finds nothing
      have hf2 : findExecEntry (applyUpdate ok id u s a found).executions id =
          none := by
        rw [applyUpdate_executions]
        exact findExecEntry_after_replace_neg hid s.executions a found hnd
          hcross hf
      have h2 : updateExecution ok id u (applyUpdate ok id u s a found) =
          applyUpdate ok id u s a found := by
        rw [updateExecution, hf2]
      rw [h1, h2]
      exact ⟨⟨rfl, rfl, rfl⟩, fun _ => rfl⟩

/-- Witness for C9 at a one-execution store, completing that execution
twice. -/
theorem updateExecution_idem_witness :
    NodupKeys oneExecState.executions ∧
    CrossUniqueIds oneExecState.executions ∧
    updateExecution okAll "ex-1" completedUpdate
        (updateExecution okAll "ex-1" completedUpdate oneExecState) =
      updateExecution okAll "ex-1" completedUpdate oneExecState :=
  ⟨by decide, by decide,
   (updateExecution_idem okAll "ex-1" completedUpdate oneExecState
      (by decide) (by decide)).2 (fun _ _ => rfl)⟩

/-- Claim C8 (counterexample): after adding a pending execution for agent-a
and clearing agent-a's history — a state reachable by the public store
operations — the current execution is gone but the executing flag is still
true, so the biconditional fails in a reachable state. -/
theorem clearHistory_leaves_stale_executing_flag :
    ¬(∀ s, ReachableStore s → ExecFlagInv s) := by
  intro hall
  have hre : ReachableStore clearedWhileExecuting :=
    ReachableStore.step
      (ReachableStore.step ReachableStore.init
        (StoreStep.add okAll pendingExec initialState))
      (StoreStep.clear "agent-a" (addExecution okAll pendingExec initialState))
  have hinv := hall _ hre
  have h1 : clearedWhileExecuting.isExecuting = true := rfl
  have h2 : clearedWhileExecuting.currentExecution = none := rfl
  obtain ⟨e, he, _⟩ := hinv.mp h1
  rw [h2] at he
  exact Option.noConfusion he

end Veo3
